import Mathlib

/-!
Shallow embedding of `src/ai_summarize.py` (bibdesk-summarize).

The script summarizes a PDF with an LLM: a cross-process exclusion guard
over a shared line file (`StorageWithLock`), a usage accumulator (`Usage`),
retrying remote-call wrappers (`summarize_content`, `gather_content`,
`merge_sections`), and a map / transpose / reduce pipeline (`main`).

Remote nondeterminism (network, model output, parse failures) is abstracted
as attempt-indexed oracles: attempt `i` either fails (an exception was
raised by the call or by `json.loads`) or yields the parsed payload.
`asyncio.gather` preserves submission order, so it embeds as `List.map`.
The optional-semaphore branch of each wrapper re-enters the same function
with `sem = None` and is value-transparent, so it is not modelled.
-/

/-- Python `str.isspace` characters relevant to `str.strip()`. -/
def pyIsSpace (c : Char) : Bool :=
  c == ' ' || c == '\t' || c == '\n' || c == '\r' || c == '\x0b' || c == '\x0c'

/-- One line of the guard storage file, as a character list. -/
abbrev Line := List Char

/-- Python `str.strip()`: drop leading and trailing whitespace. -/
def pyStrip (s : Line) : Line :=
  ((s.dropWhile pyIsSpace).reverse.dropWhile pyIsSpace).reverse

/-- `StorageWithLock.check_exists` (lines 156-174): some stored line strips
to the same string as the queried line.  The file contents are the list of
lines as `readlines` returns them. -/
def check_exists (store : List Line) (line : Line) : Bool :=
  store.any fun l => pyStrip l == pyStrip line

/-- `StorageWithLock.add_line` (lines 176-186): append `line.strip() + '\n'`. -/
def add_line (store : List Line) (line : Line) : List Line :=
  store ++ [pyStrip line ++ ['\n']]

/-- `StorageWithLock.remove_line` (lines 188-202): keep exactly the lines
whose stripped form differs from the stripped argument. -/
def remove_line (store : List Line) (line : Line) : List Line :=
  store.filter fun l => pyStrip l != pyStrip line

/-- `openai.types.completion_usage.PromptTokensDetails`: only the
`cached_tokens` field is read by the script; it may be absent. -/
structure PromptTokensDetails where
  cached_tokens : Option Nat
deriving DecidableEq

/-- `openai.types.CompletionUsage` as read by `Usage.update_usage`:
reported token counts are non-negative; the details object may be absent. -/
structure CompletionUsage where
  completion_tokens : Nat
  prompt_tokens : Nat
  prompt_tokens_details : Option PromptTokensDetails
deriving DecidableEq

/-- The `Usage` singleton's counters (lines 92-102).  Python integers are
unbounded and signed, so the counters are `Int`. -/
structure Usage where
  input_tokens : Int
  output_tokens : Int
  cached_tokens : Int
deriving DecidableEq

/-- The counters right after `Usage.__new__` first runs: all zero. -/
def usageInit : Usage := ⟨0, 0, 0⟩

/-- `Usage.update_usage` (lines 104-112), statement by statement:
`None` returns unchanged; otherwise `output += completion`,
`input += prompt`, and if a cached count is present,
`input -= cached; cached += cached`. -/
def update_usage (u : Usage) (usage : Option CompletionUsage) : Usage :=
  match usage with
  | none => u
  | some x =>
    let u1 : Usage := { u with output_tokens := u.output_tokens + x.completion_tokens }
    let u2 : Usage := { u1 with input_tokens := u1.input_tokens + x.prompt_tokens }
    match x.prompt_tokens_details with
    | none => u2
    | some d =>
      match d.cached_tokens with
      | none => u2
      | some c =>
        { u2 with input_tokens := u2.input_tokens - c,
                  cached_tokens := u2.cached_tokens + c }

/-- The cached count the code reads: zero when either optional layer is
absent. -/
def cachedOf (x : CompletionUsage) : Nat :=
  ((x.prompt_tokens_details.map PromptTokensDetails.cached_tokens).join).getD 0

/-- A process lifetime of `update_usage` calls, starting from the zeroed
singleton. -/
def run_usage (us : List (Option CompletionUsage)) : Usage :=
  us.foldl update_usage usageInit

/-- A reported usage value is consistent when any cached count it carries
does not exceed its prompt count (true of every real API response). -/
def usageOk (x : Option CompletionUsage) : Bool :=
  match x with
  | none => true
  | some y => cachedOf y ≤ y.prompt_tokens

/-- The parsed JSON object returned by the model: finitely many
string-valued fields (`json.loads` yields unique keys). -/
abbrev RawDict := List (String × String)

/-- Python `dict.get(k, '')` on a parsed JSON object. -/
def dictGet (d : RawDict) (k : String) : String :=
  (((d.find? fun kv => kv.1 == k).map Prod.snd)).getD ""

/-- The per-page record built by `summarize_content` (lines 224-270): a dict
with exactly the five known topic keys, in the order the code writes them. -/
structure Record where
  introduction : String
  method : String
  contribution : String
  experiment : String
  discussion : String
deriving DecidableEq

/-- The fallback record returned on retry exhaustion (lines 264-270). -/
def emptyRecord : Record := ⟨"", "", "", "", ""⟩

/-- Lines 254-260: the returned dict keeps only the five known topics,
each read with `summary_dict.get(topic, '')`, so unknown topics are
dropped and missing ones default to the empty string. -/
def mkRecord (d : RawDict) : Record :=
  ⟨dictGet d "introduction", dictGet d "method", dictGet d "contribution",
   dictGet d "experiment", dictGet d "discussion"⟩

/-- `result.items()` for one record: the dict's insertion order. -/
def Record.items (r : Record) : List (String × String) :=
  [("introduction", r.introduction), ("method", r.method),
   ("contribution", r.contribution), ("experiment", r.experiment),
   ("discussion", r.discussion)]

/-- The fixed topic set. -/
def topics : List String :=
  ["introduction", "method", "contribution", "experiment", "discussion"]

/-- The retry loop of `summarize_content` (lines 242-270).  `oracle i` is
the outcome of attempt `i`: `some d` when the remote call succeeds and its
content parses to the dict `d`, `none` when any exception is raised.  The
result pairs the returned record with the number of attempts performed. -/
def summarize_content (oracle : Nat → Option RawDict) : Nat → Nat → Record × Nat
  | 0, _ => (emptyRecord, 0)
  | retry + 1, i =>
    match oracle i with
    | some d => (mkRecord d, 1)
    | none =>
      let rest := summarize_content oracle retry (i + 1)
      (rest.1, rest.2 + 1)

/-- The retry loop of `gather_content` (lines 290-306): same shape, the
success value is the stripped message content (opaque here), the
exhaustion value is `''`. -/
def gather_content (oracle : Nat → Option String) : Nat → Nat → String × Nat
  | 0, _ => ("", 0)
  | retry + 1, i =>
    match oracle i with
    | some s => (s, 1)
    | none =>
      let rest := gather_content oracle retry (i + 1)
      (rest.1, rest.2 + 1)

/-- The retry loop of `merge_sections` (lines 328-344): identical to
`gather_content` after abstracting the request payload. -/
def merge_sections (oracle : Nat → Option String) : Nat → Nat → String × Nat
  | 0, _ => ("", 0)
  | retry + 1, i =>
    match oracle i with
    | some s => (s, 1)
    | none =>
      let rest := merge_sections oracle retry (i + 1)
      (rest.1, rest.2 + 1)

/-- The map stage of `main` (lines 359-361): one `summarize_content` task
per page, gathered in submission order.  `oracles i` is the attempt oracle
of page `i`'s task. -/
def mapStage (oracles : Nat → Nat → Option RawDict) (retry : Nat)
    (pages : List String) : List Record :=
  (List.range pages.length).map fun i => (summarize_content (oracles i) retry 0).1

/-- `sections[key]`: Python dict lookup on the insertion-ordered section
map (every looked-up key is present in `main`; absent keys default to `[]`
so the embedding is total). -/
def lookupSec (secs : List (String × List String)) (k : String) : List String :=
  ((secs.find? fun kv => kv.1 == k).map Prod.snd).getD []

/-- One iteration of the inner loop of lines 363-368: append `value` to
`sections[key]`, creating the key at the end on first sight (Python dicts
preserve insertion order). -/
def insertSection (secs : List (String × List String)) (k : String)
    (v : String) : List (String × List String) :=
  match secs with
  | [] => [(k, [v])]
  | (k0, l0) :: rest =>
    if k0 == k then (k0, l0 ++ [v]) :: rest
    else (k0, l0) :: insertSection rest k v

/-- The transpose loop of `main` (lines 363-368): fold every record's
items into the section map. -/
def transpose (results : List Record) : List (String × List String) :=
  results.foldl (fun secs r => r.items.foldl (fun s kv => insertSection s kv.1 kv.2) secs) []

/-- Abbreviation for the section map as it looks after at least one record
has been folded in: all five topic keys, in dict insertion order. -/
def fiveSecs (a b c d e : List String) : List (String × List String) :=
  [("introduction", a), ("method", b), ("contribution", c),
   ("experiment", d), ("discussion", e)]

/-- The reduce-by-topic step of `main` (lines 370-375): `zip(sections, ...)`
pairs the dict's keys, in order, with the gathered results of
`gather_content(llm, key, sections[key], sem) for key in sections`.
`G key corpus` abstracts the value each merge task settles to. -/
def gatherAll (G : String → List String → String)
    (secs : List (String × List String)) : List (String × String) :=
  (secs.map Prod.fst).zip ((secs.map Prod.fst).map fun k => G k (lookupSec secs k))

/-- Python dict lookup on the comprehension built from the zip. -/
def lookupGathered (g : List (String × String)) (k : String) : Option String :=
  (g.find? fun kv => kv.1 == k).map Prod.snd

/-- Concrete records used to instantiate the pipeline lemmas. -/
def recW1 : Record := ⟨"i1", "m1", "c1", "e1", "d1"⟩

/-- A second concrete record, with some empty topics. -/
def recW2 : Record := ⟨"i2", "", "c2", "", "d2"⟩

/-- Result of one `main` run (lines 347-383): final guard-store contents,
the number of remote-call attempts issued, and either the error raised or
the merged content that is printed. -/
structure MainResult where
  store : List Line
  remoteAttempts : Nat
  outcome : Except String String

/-- `main` (lines 347-383).  `pdf` is `PDF_FILE`; `store0` the shared
`processing.list` contents; `readRes` the outcome of `read_document`
(`none` when `pymupdf` raises); the oracles drive the remote calls of the
map stage (per page), the per-topic reduce (per topic key and corpus) and
the final merge.  The retry budget is the default `5` everywhere. -/
def mainRun (pdf : Line) (store0 : List Line) (readRes : Option (List String))
    (sOr : Nat → Nat → Option RawDict)
    (gOr : String → List String → Nat → Option String)
    (mOr : List (String × String) → Nat → Option String) : MainResult :=
  if check_exists store0 pdf then
    ⟨store0, 0, .error "duplicate in-flight"⟩
  else
    let store1 := add_line store0 pdf
    match readRes with
    | none => ⟨store1, 0, .error "read failed"⟩
    | some pages =>
      let resultsC := (List.range pages.length).map fun i =>
        summarize_content (sOr i) 5 0
      let results := resultsC.map Prod.fst
      let secs := transpose results
      let gatheredC := (secs.map Prod.fst).map fun k =>
        gather_content (gOr k (lookupSec secs k)) 5 0
      let gathered := (secs.map Prod.fst).zip (gatheredC.map Prod.fst)
      let mergedC := merge_sections (mOr gathered) 5 0
      let attempts := (resultsC.map Prod.snd).sum + (gatheredC.map Prod.snd).sum + mergedC.2
      ⟨remove_line store1 pdf, attempts, .ok mergedC.1⟩

-- Helper lemmas about `pyStrip`.

theorem dropWhile_idem (p : Char → Bool) (l : List Char) :
    (l.dropWhile p).dropWhile p = l.dropWhile p := by
  induction l with
  | nil => rfl
  | cons c cs ih =>
    by_cases h : p c
    · simpa [List.dropWhile, h] using ih
    · simp [List.dropWhile, h]

theorem dropWhile_cons_of_pos (p : Char → Bool) (c : Char) (l : List Char)
    (h : p c = true) : (c :: l).dropWhile p = l.dropWhile p := by
  simp [List.dropWhile, h]

theorem dropWhile_suffix_my (p : Char → Bool) (l : List Char) :
    l.dropWhile p <:+ l := by
  induction l with
  | nil => exact List.suffix_refl _
  | cons c cs ih =>
    by_cases h : p c
    · simpa [List.dropWhile, h] using ih.trans (List.suffix_cons c cs)
    · simp [List.dropWhile, h]

theorem head_false_of_dropWhile_fixed (p : Char → Bool) (c : Char) (cs : List Char)
    (h : (c :: cs).dropWhile p = c :: cs) : p c = false := by
  by_cases hp : p c
  · exfalso
    have hlen : ((c :: cs).dropWhile p).length ≤ cs.length := by
      rw [dropWhile_cons_of_pos p c cs hp]
      exact (cs.dropWhile_sublist p).length_le
    rw [h] at hlen
    simp at hlen
  · simpa using hp

theorem dropWhile_prefix_fixed (p : Char → Bool) (u v : List Char)
    (hpre : v <+: u) (hu : u.dropWhile p = u) : v.dropWhile p = v := by
  cases v with
  | nil => rfl
  | cons c cs =>
    obtain ⟨t, ht⟩ := hpre
    subst ht
    rw [List.cons_append] at hu
    have hc : p c = false := head_false_of_dropWhile_fixed p c (cs ++ t) hu
    simp [List.dropWhile, hc]

/-- `pyStrip` leaves no leading whitespace behind. -/
theorem pyStrip_dropWhile (l : Line) :
    (pyStrip l).dropWhile pyIsSpace = pyStrip l := by
  unfold pyStrip
  apply dropWhile_prefix_fixed pyIsSpace (l.dropWhile pyIsSpace)
  · rw [← List.reverse_suffix]
    simp only [List.reverse_reverse]
    exact dropWhile_suffix_my pyIsSpace _
  · exact dropWhile_idem pyIsSpace l

/-- Stripping the trailing side of `pyStrip l` is a no-op. -/
theorem pyStrip_reverse_dropWhile (l : Line) :
    (pyStrip l).reverse.dropWhile pyIsSpace = (pyStrip l).reverse := by
  unfold pyStrip
  simp only [List.reverse_reverse]
  exact dropWhile_idem pyIsSpace _

theorem pyStrip_concat_newline_aux (t : Line)
    (h1 : t.dropWhile pyIsSpace = t)
    (h2 : t.reverse.dropWhile pyIsSpace = t.reverse) :
    pyStrip (t ++ ['\n']) = t := by
  cases t with
  | nil => decide
  | cons c cs =>
    have hc : pyIsSpace c = false := head_false_of_dropWhile_fixed _ c cs h1
    unfold pyStrip
    rw [List.cons_append]
    rw [show (c :: (cs ++ ['\n'])).dropWhile pyIsSpace = c :: (cs ++ ['\n']) by
      simp [List.dropWhile, hc]]
    rw [show (c :: (cs ++ ['\n'])).reverse = '\n' :: (c :: cs).reverse by simp]
    rw [dropWhile_cons_of_pos _ _ _ (by decide), h2]
    simp

/-- Stripping is idempotent on the write format `stripped + '\n'`:
`(l.strip() + '\n').strip() = l.strip()`. -/
theorem pyStrip_append_newline (l : Line) :
    pyStrip (pyStrip l ++ ['\n']) = pyStrip l :=
  pyStrip_concat_newline_aux (pyStrip l) (pyStrip_dropWhile l)
    (pyStrip_reverse_dropWhile l)

-- Guard-store lemmas shared by several claims.

theorem check_exists_add_line_self (store : List Line) (line : Line) :
    check_exists (add_line store line) line = true := by
  simp [check_exists, add_line, List.any_append, pyStrip_append_newline]

theorem check_exists_remove_line_self (store : List Line) (line : Line) :
    check_exists (remove_line store line) line = false := by
  simp only [check_exists, remove_line, List.any_eq_false, List.mem_filter,
    bne_iff_ne, beq_iff_eq]
  intro l hl
  exact hl.2

/-- C6: the guard round-trips: after `add_line identity` a
`check_exists identity` returns `True` (a second acquire is rejected), and
after `remove_line identity` a `check_exists identity` returns `False`
(acquiring again succeeds), whatever the prior store contents. -/
theorem guard_acquire_release_roundtrip (store : List Line) (line : Line) :
    check_exists (add_line store line) line = true ∧
    check_exists (remove_line store line) line = false :=
  ⟨check_exists_add_line_self store line, check_exists_remove_line_self store line⟩

/-- C10: guard identities are compared modulo `str.strip()` in every
operation: two lines with the same stripped form are interchangeable for
`check_exists`, `add_line` and `remove_line`, and `add_line` stores the
stripped form followed by a newline. -/
theorem guard_strip_insensitive (store : List Line) (a b : Line)
    (h : pyStrip a = pyStrip b) :
    check_exists store a = check_exists store b ∧
    add_line store a = add_line store b ∧
    remove_line store a = remove_line store b ∧
    add_line store a = store ++ [pyStrip a ++ ['\n']] := by
  refine ⟨?_, ?_, ?_, rfl⟩ <;> simp [check_exists, add_line, remove_line, h]

theorem guard_strip_insensitive_witness :
    pyStrip [' ', 'd', 'o', 'c', '\n'] = pyStrip ['d', 'o', 'c'] ∧
    (check_exists [['x']] [' ', 'd', 'o', 'c', '\n'] = check_exists [['x']] ['d', 'o', 'c'] ∧
     add_line [['x']] [' ', 'd', 'o', 'c', '\n'] = add_line [['x']] ['d', 'o', 'c'] ∧
     remove_line [['x']] [' ', 'd', 'o', 'c', '\n'] = remove_line [['x']] ['d', 'o', 'c'] ∧
     add_line [['x']] [' ', 'd', 'o', 'c', '\n'] =
       [['x']] ++ [pyStrip [' ', 'd', 'o', 'c', '\n'] ++ ['\n']]) :=
  ⟨by decide, guard_strip_insensitive [['x']] _ _ (by decide)⟩

-- Usage accounting.

theorem update_usage_none (u : Usage) : update_usage u none = u := rfl

theorem update_usage_some (u : Usage) (x : CompletionUsage) :
    update_usage u (some x) =
      ⟨u.input_tokens + x.prompt_tokens - cachedOf x,
       u.output_tokens + x.completion_tokens,
       u.cached_tokens + cachedOf x⟩ := by
  cases hd : x.prompt_tokens_details with
  | none => simp [update_usage, cachedOf, hd]
  | some d =>
    cases hc : d.cached_tokens with
    | none => simp [update_usage, cachedOf, hd, hc, Option.join]
    | some c => simp [update_usage, cachedOf, hd, hc, Option.join]

/-- C8: per-call accounting: `update_usage` with `None` leaves all three
counters unchanged; with a usage object, `output_tokens` grows by
`completion_tokens`, `input_tokens` by `prompt_tokens`, and a present
cached count is subtracted from `input_tokens` and added to
`cached_tokens`, a missing cached count acting as zero. -/
theorem update_usage_per_call (u : Usage) (x : CompletionUsage) :
    update_usage u none = u ∧
    (update_usage u (some x)).output_tokens = u.output_tokens + x.completion_tokens ∧
    (update_usage u (some x)).input_tokens = u.input_tokens + x.prompt_tokens - cachedOf x ∧
    (update_usage u (some x)).cached_tokens = u.cached_tokens + cachedOf x := by
  rw [update_usage_some]
  exact ⟨rfl, rfl, rfl, rfl⟩

theorem update_usage_mono (u : Usage) (x : Option CompletionUsage)
    (h : usageOk x = true) :
    u.input_tokens ≤ (update_usage u x).input_tokens ∧
    u.output_tokens ≤ (update_usage u x).output_tokens ∧
    u.cached_tokens ≤ (update_usage u x).cached_tokens := by
  cases x with
  | none => exact ⟨le_refl _, le_refl _, le_refl _⟩
  | some y =>
    simp only [usageOk, decide_eq_true_eq] at h
    rw [update_usage_some]
    refine ⟨?_, ?_, ?_⟩ <;> (simp; try omega)

theorem run_usage_nonneg_aux (us : List (Option CompletionUsage)) :
    ∀ u : Usage, (∀ x ∈ us, usageOk x = true) →
    0 ≤ u.input_tokens → 0 ≤ u.output_tokens → 0 ≤ u.cached_tokens →
    0 ≤ (us.foldl update_usage u).input_tokens ∧
    0 ≤ (us.foldl update_usage u).output_tokens ∧
    0 ≤ (us.foldl update_usage u).cached_tokens := by
  induction us with
  | nil => intro u _ h1 h2 h3; exact ⟨h1, h2, h3⟩
  | cons x xs ih =>
    intro u h h1 h2 h3
    have hx := update_usage_mono u x (h x (by simp))
    simp only [List.foldl_cons]
    exact ih (update_usage u x) (fun y hy => h y (List.mem_cons_of_mem x hy))
      (le_trans h1 hx.1) (le_trans h2 hx.2.1) (le_trans h3 hx.2.2)

/-- C9 counterexample: the claim quantifies over every sequence of reported
usage values, but a report whose cached count (5) exceeds its prompt count
(0) makes `input_tokens` strictly decrease and go negative. -/
theorem usage_monotone_counterexample :
    (update_usage usageInit (some ⟨0, 0, some ⟨some 5⟩⟩)).input_tokens
        < usageInit.input_tokens ∧
    (update_usage usageInit (some ⟨0, 0, some ⟨some 5⟩⟩)).input_tokens < 0 := by
  decide

/-- C9 (amended): provided every reported usage value carries a cached
count no larger than its prompt count, no `update_usage` call decreases
any of the three counters, and starting from zero every counter stays
non-negative along any sequence of calls. -/
theorem usage_monotone_amended (us : List (Option CompletionUsage))
    (h : ∀ x ∈ us, usageOk x = true) :
    (∀ (u : Usage) (x : Option CompletionUsage), usageOk x = true →
      u.input_tokens ≤ (update_usage u x).input_tokens ∧
      u.output_tokens ≤ (update_usage u x).output_tokens ∧
      u.cached_tokens ≤ (update_usage u x).cached_tokens) ∧
    0 ≤ (run_usage us).input_tokens ∧
    0 ≤ (run_usage us).output_tokens ∧
    0 ≤ (run_usage us).cached_tokens := by
  refine ⟨update_usage_mono, ?_⟩
  exact run_usage_nonneg_aux us usageInit h (by decide) (by decide) (by decide)

theorem usage_monotone_amended_witness :
    (∀ x ∈ [some (⟨7, 10, some ⟨some 4⟩⟩ : CompletionUsage), none], usageOk x = true) ∧
    (0 ≤ (run_usage [some (⟨7, 10, some ⟨some 4⟩⟩ : CompletionUsage), none]).input_tokens ∧
     0 ≤ (run_usage [some (⟨7, 10, some ⟨some 4⟩⟩ : CompletionUsage), none]).output_tokens ∧
     0 ≤ (run_usage [some (⟨7, 10, some ⟨some 4⟩⟩ : CompletionUsage), none]).cached_tokens) :=
  ⟨by decide,
   (usage_monotone_amended [some (⟨7, 10, some ⟨some 4⟩⟩ : CompletionUsage), none]
      (by decide)).2⟩

-- Retry exhaustion.

theorem summarize_content_all_fail (so : Nat → Option RawDict)
    (hs : ∀ i, so i = none) : ∀ k i, summarize_content so k i = (emptyRecord, k) := by
  intro k
  induction k with
  | zero => intro i; rfl
  | succ n ih =>
    intro i
    simp [summarize_content, hs i, ih (i + 1)]

theorem gather_content_all_fail (go : Nat → Option String)
    (hg : ∀ i, go i = none) : ∀ k i, gather_content go k i = ("", k) := by
  intro k
  induction k with
  | zero => intro i; rfl
  | succ n ih =>
    intro i
    simp [gather_content, hg i, ih (i + 1)]

theorem merge_sections_all_fail (mo : Nat → Option String)
    (hm : ∀ i, mo i = none) : ∀ k i, merge_sections mo k i = ("", k) := by
  intro k
  induction k with
  | zero => intro i; rfl
  | succ n ih =>
    intro i
    simp [merge_sections, hm i, ih (i + 1)]

/-- C2: with retry budget `k` and a task whose every attempt fails, each
wrapper performs exactly `k` attempts (the second component) and returns
the empty value of its output type — the all-empty record for
`summarize_content`, the empty string for `gather_content` and
`merge_sections`.  The wrappers are total Lean functions, so no exception
escapes to the caller. -/
theorem retry_exhaustion (k : Nat) (so : Nat → Option RawDict)
    (go mo : Nat → Option String)
    (hs : ∀ i, so i = none) (hg : ∀ i, go i = none) (hm : ∀ i, mo i = none) :
    summarize_content so k 0 = (emptyRecord, k) ∧
    gather_content go k 0 = ("", k) ∧
    merge_sections mo k 0 = ("", k) :=
  ⟨summarize_content_all_fail so hs k 0, gather_content_all_fail go hg k 0,
   merge_sections_all_fail mo hm k 0⟩

theorem retry_exhaustion_witness :
    summarize_content (fun _ => none) 5 0 = (emptyRecord, 5) ∧
    gather_content (fun _ => none) 5 0 = ("", 5) ∧
    merge_sections (fun _ => none) 5 0 = ("", 5) :=
  retry_exhaustion 5 (fun _ => none) (fun _ => none) (fun _ => none)
    (fun _ => rfl) (fun _ => rfl) (fun _ => rfl)

-- Map stage.

theorem record_items_keys (r : Record) : r.items.map Prod.fst = topics := rfl

theorem mapStage_getD (pages : List String) (oracles : Nat → Nat → Option RawDict)
    (retry : Nat) (i : Nat) (h : i < pages.length) :
    (mapStage oracles retry pages).getD i emptyRecord =
      (summarize_content (oracles i) retry 0).1 := by
  unfold mapStage
  rw [List.getD_eq_getElem?_getD, List.getElem?_map, List.getElem?_range h]
  rfl

/-- C1: the map stage returns one record per page, in page order (the
`i`-th record is the value of page `i`'s task), every record's dict holds
exactly the five known topic keys, and a successfully parsed response `d`
is reduced to those five keys with `d.get(topic, '')` — extra topics are
dropped and missing ones default to the empty string. -/
theorem map_stage_shape (pages : List String) (oracles : Nat → Nat → Option RawDict)
    (retry : Nat) :
    (mapStage oracles retry pages).length = pages.length ∧
    (∀ i, i < pages.length →
      (mapStage oracles retry pages).getD i emptyRecord =
        (summarize_content (oracles i) retry 0).1) ∧
    (∀ r ∈ mapStage oracles retry pages, r.items.map Prod.fst = topics) ∧
    (∀ d : RawDict, (mkRecord d).items = topics.map fun t => (t, dictGet d t)) := by
  refine ⟨by simp [mapStage], mapStage_getD pages oracles retry, ?_, fun d => rfl⟩
  intro r _
  exact record_items_keys r

theorem map_stage_shape_witness :
    (mapStage (fun _ _ => some [("junk", "z"), ("method", "m")]) 5 ["pageA", "pageB"]).getD
        1 emptyRecord =
      (summarize_content ((fun _ _ => some [("junk", "z"), ("method", "m")] :
          Nat → Nat → Option RawDict) 1) 5 0).1 :=
  (map_stage_shape ["pageA", "pageB"] (fun _ _ => some [("junk", "z"), ("method", "m")]) 5).2.1
    1 (by decide)

-- Transpose.

theorem items_fold_nil (r : Record) :
    r.items.foldl (fun s kv => insertSection s kv.1 kv.2) [] =
      fiveSecs [r.introduction] [r.method] [r.contribution] [r.experiment]
        [r.discussion] := rfl

theorem items_fold_fiveSecs (a b c d e : List String) (r : Record) :
    r.items.foldl (fun s kv => insertSection s kv.1 kv.2) (fiveSecs a b c d e) =
      fiveSecs (a ++ [r.introduction]) (b ++ [r.method]) (c ++ [r.contribution])
        (d ++ [r.experiment]) (e ++ [r.discussion]) := rfl

theorem transpose_fold_fiveSecs (rs : List Record) :
    ∀ a b c d e : List String,
      rs.foldl (fun secs r => r.items.foldl (fun s kv => insertSection s kv.1 kv.2) secs)
          (fiveSecs a b c d e) =
        fiveSecs (a ++ rs.map Record.introduction) (b ++ rs.map Record.method)
          (c ++ rs.map Record.contribution) (d ++ rs.map Record.experiment)
          (e ++ rs.map Record.discussion) := by
  induction rs with
  | nil => intro a b c d e; simp
  | cons r rest ih =>
    intro a b c d e
    rw [List.foldl_cons, items_fold_fiveSecs, ih]
    simp

theorem transpose_cons (r : Record) (rs : List Record) :
    transpose (r :: rs) =
      fiveSecs ((r :: rs).map Record.introduction) ((r :: rs).map Record.method)
        ((r :: rs).map Record.contribution) ((r :: rs).map Record.experiment)
        ((r :: rs).map Record.discussion) := by
  unfold transpose
  rw [List.foldl_cons, items_fold_nil, transpose_fold_fiveSecs]
  simp

theorem getD_map_record (l : List Record) (f : Record → String) (i : Nat)
    (h : i < l.length) : (l.map f).getD i "" = f (l.getD i emptyRecord) := by
  rw [List.getD_eq_getElem?_getD, List.getD_eq_getElem?_getD, List.getElem?_map,
    List.getElem?_eq_getElem h]
  rfl

/-- C3: transposition is a faithful inverse of grouping: for every result
sequence the per-topic corpus lists are exactly the per-unit values in
unit order (`sections[t][i] = records[i][t]`), each topic's list has
length `N`, and the original records are reconstructed from the corpora. -/
theorem transpose_faithful (rs : List Record) :
    lookupSec (transpose rs) "introduction" = rs.map Record.introduction ∧
    lookupSec (transpose rs) "method" = rs.map Record.method ∧
    lookupSec (transpose rs) "contribution" = rs.map Record.contribution ∧
    lookupSec (transpose rs) "experiment" = rs.map Record.experiment ∧
    lookupSec (transpose rs) "discussion" = rs.map Record.discussion ∧
    (∀ t ∈ topics, (lookupSec (transpose rs) t).length = rs.length) ∧
    (∀ i, i < rs.length →
      rs.getD i emptyRecord =
        ⟨(lookupSec (transpose rs) "introduction").getD i "",
         (lookupSec (transpose rs) "method").getD i "",
         (lookupSec (transpose rs) "contribution").getD i "",
         (lookupSec (transpose rs) "experiment").getD i "",
         (lookupSec (transpose rs) "discussion").getD i ""⟩) := by
  have h1 : lookupSec (transpose rs) "introduction" = rs.map Record.introduction := by
    cases rs with
    | nil => rfl
    | cons r rest => rw [transpose_cons]; rfl
  have h2 : lookupSec (transpose rs) "method" = rs.map Record.method := by
    cases rs with
    | nil => rfl
    | cons r rest => rw [transpose_cons]; rfl
  have h3 : lookupSec (transpose rs) "contribution" = rs.map Record.contribution := by
    cases rs with
    | nil => rfl
    | cons r rest => rw [transpose_cons]; rfl
  have h4 : lookupSec (transpose rs) "experiment" = rs.map Record.experiment := by
    cases rs with
    | nil => rfl
    | cons r rest => rw [transpose_cons]; rfl
  have h5 : lookupSec (transpose rs) "discussion" = rs.map Record.discussion := by
    cases rs with
    | nil => rfl
    | cons r rest => rw [transpose_cons]; rfl
  refine ⟨h1, h2, h3, h4, h5, ?_, ?_⟩
  · intro t ht
    simp only [topics, List.mem_cons, List.not_mem_nil, or_false] at ht
    rcases ht with rfl | rfl | rfl | rfl | rfl
    · rw [h1]; simp
    · rw [h2]; simp
    · rw [h3]; simp
    · rw [h4]; simp
    · rw [h5]; simp
  · intro i hi
    rw [h1, h2, h3, h4, h5, getD_map_record _ _ _ hi, getD_map_record _ _ _ hi,
      getD_map_record _ _ _ hi, getD_map_record _ _ _ hi, getD_map_record _ _ _ hi]

theorem transpose_faithful_witness :
    [recW1, recW2].getD 1 emptyRecord =
      ⟨(lookupSec (transpose [recW1, recW2]) "introduction").getD 1 "",
       (lookupSec (transpose [recW1, recW2]) "method").getD 1 "",
       (lookupSec (transpose [recW1, recW2]) "contribution").getD 1 "",
       (lookupSec (transpose [recW1, recW2]) "experiment").getD 1 "",
       (lookupSec (transpose [recW1, recW2]) "discussion").getD 1 ""⟩ :=
  (transpose_faithful [recW1, recW2]).2.2.2.2.2.2 1 (by decide)

-- Reduce-by-topic pairing.

/-- C4: the per-topic reduce is paired correctly: for every topic key of
the transposed section map, the zip of the dict's keys with the gathered
results associates that key with the merge result of its own corpus,
`gathered_sections[t] = G t sections[t]`, never with another topic's. -/
theorem reduce_pairing (G : String → List String → String) (rs : List Record)
    (t : String) (ht : t ∈ (transpose rs).map Prod.fst) :
    lookupGathered (gatherAll G (transpose rs)) t =
      some (G t (lookupSec (transpose rs) t)) := by
  cases rs with
  | nil => simp [transpose] at ht
  | cons r rest =>
    rw [transpose_cons] at ht ⊢
    simp only [fiveSecs, List.map_cons, List.map_nil, List.mem_cons,
      List.not_mem_nil, or_false] at ht
    rcases ht with rfl | rfl | rfl | rfl | rfl <;> rfl

theorem reduce_pairing_witness :
    lookupGathered (gatherAll (fun k c => String.intercalate "," c ++ k)
        (transpose [recW1, recW2])) "method" =
      some ((fun k c => String.intercalate "," c ++ k) "method"
        (lookupSec (transpose [recW1, recW2]) "method")) :=
  reduce_pairing (fun k c => String.intercalate "," c ++ k) [recW1, recW2]
    "method" (by decide)

-- Pipeline admission and guard lifecycle.

/-- C5: if the identity is already present in the guard store, `main`
raises the duplicate-in-flight error at once: the store is returned
unchanged (`add_line` is never reached) and zero remote-call attempts are
issued. -/
theorem admit_duplicate (pdf : Line) (store0 : List Line)
    (readRes : Option (List String)) (sOr : Nat → Nat → Option RawDict)
    (gOr : String → List String → Nat → Option String)
    (mOr : List (String × String) → Nat → Option String)
    (h : check_exists store0 pdf = true) :
    mainRun pdf store0 readRes sOr gOr mOr =
      ⟨store0, 0, .error "duplicate in-flight"⟩ := by
  simp [mainRun, h]

theorem admit_duplicate_witness :
    mainRun ['d', 'o', 'c'] [['d', 'o', 'c', '\n']] (some ["page"])
        (fun _ _ => none) (fun _ _ _ => none) (fun _ _ => none) =
      ⟨[['d', 'o', 'c', '\n']], 0, .error "duplicate in-flight"⟩ :=
  admit_duplicate ['d', 'o', 'c'] [['d', 'o', 'c', '\n']] (some ["page"])
    (fun _ _ => none) (fun _ _ _ => none) (fun _ _ => none) (by decide)

/-- C7: on the failure path after admission the guard entry is not
removed: when reading the input document raises, `main` stops with the
error, the final store is exactly `add_line store0 pdf` (no `remove_line`
ran, no remote attempt was issued), and the identity is still found in the
store. -/
theorem failure_keeps_guard_entry (pdf : Line) (store0 : List Line)
    (sOr : Nat → Nat → Option RawDict)
    (gOr : String → List String → Nat → Option String)
    (mOr : List (String × String) → Nat → Option String)
    (h : check_exists store0 pdf = false) :
    mainRun pdf store0 none sOr gOr mOr =
      ⟨add_line store0 pdf, 0, .error "read failed"⟩ ∧
    check_exists (add_line store0 pdf) pdf = true := by
  constructor
  · simp [mainRun, h]
  · exact check_exists_add_line_self store0 pdf

theorem failure_keeps_guard_entry_witness :
    mainRun ['d', 'o', 'c'] [['o', 't', 'h', 'e', 'r', '\n']] none
        (fun _ _ => none) (fun _ _ _ => none) (fun _ _ => none) =
      ⟨add_line [['o', 't', 'h', 'e', 'r', '\n']] ['d', 'o', 'c'], 0,
        .error "read failed"⟩ ∧
    check_exists (add_line [['o', 't', 'h', 'e', 'r', '\n']] ['d', 'o', 'c'])
      ['d', 'o', 'c'] = true :=
  failure_keeps_guard_entry ['d', 'o', 'c'] [['o', 't', 'h', 'e', 'r', '\n']]
    (fun _ _ => none) (fun _ _ _ => none) (fun _ _ => none) (by decide)
